import Mathlib

/-!
# A verification development for the `diary` structured JSON logger

This file gives a shallow embedding of the `diary` Go package
(`diary.go`, with the caller resolver in `caller.go`) and proves
properties of the embedded definitions.

Modelling conventions:
* Go `int`-backed `Level` values are embedded as `Int` (so that
  out-of-range levels are representable, as they are in Go).
* A Go `map[string]interface{}` (`diary.Context` and the per-event
  `record`) is embedded as an association list without duplicate keys;
  `mapSet` is Go map assignment (`m[k] = v`, replacing an existing
  binding) and `mapGet` is Go map lookup.  Where a lemma needs the
  no-duplicate-keys property that every Go map has by construction, it
  carries it as an explicit `keysNodup` hypothesis.
* Arbitrary `interface{}` log values are embedded as the inductive
  `GoValue`; the `diary.Value` lazy wrapper holds a `GoFunc`, which
  records whether the wrapped `interface{}` is a function, its number
  of parameters and the values a call returns (so `NumOut` is the
  length of the result list).
* `encoding/json` serialization is embedded as `marshalValue` /
  `marshalRecord`, returning `Except String` as fallible code.
* The output sink (`io.Writer`) is an external collaborator; it is
  embedded as an opaque handle `writer : Nat` (0 standing for
  `os.Stdout`), and a write is recorded in `WriteResult.sink`.
* `time.Now().Format(...)` and the resolved caller location (the
  `caller.go` `Call` value, which serializes via `MarshalText` to a
  location string) are nondeterministic environment inputs; `write`
  takes them as explicit `ts` and `callerStr` arguments.
* `os.Exit(-1)` is embedded as the explicit outcome
  `ProcResult.exited (-1)`; a method that returns normally has outcome
  `ProcResult.returned`.
* The Go methods take a pointer receiver `*Logger`; they are embedded
  in state-passing style, returning the receiver's final state next to
  their output, so that absence of mutation is a provable statement.
-/

/-- JSON documents, the output domain of serialization. -/
inductive Json where
  | str : String → Json
  | num : Int → Json
  | bool : Bool → Json
  | arr : List Json → Json
  | obj : List (String × Json) → Json

mutual

/-- An embedded Go `interface{}` value that can appear in a `Context`. -/
inductive GoValue where
  | str : String → GoValue
  | num : Int → GoValue
  | bool : Bool → GoValue
  | arr : List GoValue → GoValue
  /-- a `diary.Value` lazy wrapper around some `Func interface{}` -/
  | value : GoFunc → GoValue

/-- The `Func interface{}` field of a `diary.Value`: either not a
function at all, or a function with `numIn` parameters whose
invocation yields `results` (so Go's `NumOut()` is `results.length`). -/
inductive GoFunc where
  | notFunc : GoFunc
  | fn : Nat → List GoValue → GoFunc

end

/-- Go map lookup `v, ok := m[k]`, for an association list without
duplicate keys. -/
def mapGet {κ ν : Type} [DecidableEq κ] : List (κ × ν) → κ → Option ν
  | [], _ => none
  | (k, v) :: rest, key => if k = key then some v else mapGet rest key

/-- Go map assignment `m[k] = v`: replace the binding of `k` if
present, otherwise append it. -/
def mapSet {κ ν : Type} [DecidableEq κ] : List (κ × ν) → κ → ν → List (κ × ν)
  | [], key, val => [(key, val)]
  | (k, v) :: rest, key, val =>
      if k = key then (key, val) :: rest else (k, v) :: mapSet rest key val

/-- `diary.Context`, a `map[string]interface{}`. -/
abbrev Context : Type := List (String × GoValue)

/-- The no-duplicate-keys property every Go map has by construction. -/
def keysNodup (c : Context) : Prop := (c.map Prod.fst).Nodup

/-- `for k, v := range src { dst[k] = v }`, the merge loop used by
`Logger.New` and `write`. -/
def mergeInto (dst src : Context) : Context :=
  src.foldl (fun d kv => mapSet d kv.1 kv.2) dst

/-- The specification-side overlay lookup over an ordered list of
contexts: the value bound to `k`, with later contexts winning over
earlier ones. -/
def overlayGet : List Context → String → Option GoValue
  | [], _ => none
  | c :: cs, k => (overlayGet cs k).orElse fun _ => mapGet c k

/-- Default keys for log output (`diary.go` constants). -/
def DefaultTimeKey : String := "ts"

/-- Default level key. -/
def DefaultLevelKey : String := "lvl"

/-- Default message key. -/
def DefaultMessageKey : String := "message"

/-- Default caller key. -/
def DefaultCallerKey : String := "caller"

/-- Default (and minimum) caller stack skip. -/
def DefaultCallerSkip : Int := 2

/-- `diary.Level`, an `int`-backed level of a log entry. -/
abbrev Level : Type := Int

/-- `LevelFatal = iota` (0). -/
def LevelFatal : Level := 0

/-- `LevelError` (1). -/
def LevelError : Level := 1

/-- `LevelInfo` (2). -/
def LevelInfo : Level := 2

/-- `LevelDebug` (3). -/
def LevelDebug : Level := 3

/-- `levelsMap`, the name table of `Level.String`. -/
def levelsMap : List (Level × String) :=
  [(LevelDebug, "debug"), (LevelInfo, "info"), (LevelError, "error"), (LevelFatal, "fatal")]

/-- `Level.String()`: the name of a Level, `"unknown"` when the value
is outside the table. -/
def Level.toStr (l : Level) : String := (mapGet levelsMap l).getD "unknown"

/-- `LevelFromString`: parse a Level from a string name.  Go returns
`(LevelDebug, err)` on unknown input; the failure is embedded as
`Except.error` carrying the message. -/
def LevelFromString (levelString : String) : Except String Level :=
  if levelString = "debug" then .ok LevelDebug
  else if levelString = "info" then .ok LevelInfo
  else if levelString = "error" ∨ levelString = "eror" ∨ levelString = "err" then .ok LevelError
  else if levelString = "fatal" then .ok LevelFatal
  else .error ("Unknown level: " ++ levelString)

/-- `diary.Logger`.  `writer` is an opaque sink handle (0 =
`os.Stdout`). -/
structure Logger where
  level : Level
  context : Context
  writer : Nat
  timeKey : String
  levelKey : String
  messageKey : String
  callerKey : String
  callerSkip : Int

/-- `diary.OptionsFunc`, `func(*Logger) error` in state-passing form. -/
def OptionsFunc : Type := Logger → Except String Logger

/-- `SetLevel`. -/
def SetLevel (lvl : Level) : OptionsFunc := fun l => .ok { l with level := lvl }

/-- `SetContext` (replaces, does not merge). -/
def SetContext (ctx : Context) : OptionsFunc := fun l => .ok { l with context := ctx }

/-- `SetWriter`. -/
def SetWriter (w : Nat) : OptionsFunc := fun l => .ok { l with writer := w }

/-- `SetTimeKey`. -/
def SetTimeKey (key : String) : OptionsFunc := fun l => .ok { l with timeKey := key }

/-- `SetLevelKey`. -/
def SetLevelKey (key : String) : OptionsFunc := fun l => .ok { l with levelKey := key }

/-- `SetMessageKey`. -/
def SetMessageKey (key : String) : OptionsFunc := fun l => .ok { l with messageKey := key }

/-- `SetCallerKey`. -/
def SetCallerKey (key : String) : OptionsFunc := fun l => .ok { l with callerKey := key }

/-- `SetCallerSkip`: rejects a skip below `DefaultCallerSkip`. -/
def SetCallerSkip (i : Int) : OptionsFunc := fun l =>
  if i < DefaultCallerSkip then
    .error ("caller ship must be >= " ++ toString DefaultCallerSkip)
  else
    .ok { l with callerSkip := i }

/-- `Logger.doOptions`: apply each option in order, stopping at the
first error. -/
def doOptions (l : Logger) : List OptionsFunc → Except String Logger
  | [] => .ok l
  | f :: rest => do doOptions (← f l) rest

/-- `New`: create a logger over the defaults, then apply the options;
fails (returning no logger) when an option fails. -/
def New (context : Context) (options : List OptionsFunc) : Except String Logger :=
  doOptions
    { level := LevelDebug
      context := context
      writer := 0
      timeKey := DefaultTimeKey
      levelKey := DefaultLevelKey
      messageKey := DefaultMessageKey
      callerKey := DefaultCallerKey
      callerSkip := DefaultCallerSkip } options

/-- `Logger.New`: child derivation.  Copies the scalar configuration,
builds a fresh context as parent context overlaid with the extra
context, then applies the options. -/
def Logger.New (l : Logger) (context : Context) (options : List OptionsFunc) :
    Except String Logger :=
  let ctx := mergeInto (mergeInto [] l.context) context
  doOptions
    { callerKey := l.callerKey
      level := l.level
      writer := l.writer
      timeKey := l.timeKey
      levelKey := l.levelKey
      messageKey := l.messageKey
      callerSkip := l.callerSkip
      context := ctx } options

mutual

/-- `json.Marshal` on one record value.  A plain value serializes
structurally; a `diary.Value` serializes through `Value.MarshalJSON`. -/
def marshalValue : GoValue → Except String Json
  | .str s => .ok (.str s)
  | .num n => .ok (.num n)
  | .bool b => .ok (.bool b)
  | .arr xs => (marshalList xs).map Json.arr
  | .value f => MarshalJSON f

/-- `Value.MarshalJSON`: reject a non-function, a function taking
arguments, and a function with no return value; one result serializes
directly, several serialize as an ordered sequence. -/
def MarshalJSON : GoFunc → Except String Json
  | .notFunc => .error "not func"
  | .fn (_ + 1) _ => .error "func takes args"
  | .fn 0 [] => .error "no func return val"
  | .fn 0 [r] => marshalValue r
  | .fn 0 (r1 :: r2 :: rest) => (marshalList (r1 :: r2 :: rest)).map Json.arr

/-- Serialize each value of a list, stopping at the first error. -/
def marshalList : List GoValue → Except String (List Json)
  | [] => .ok []
  | v :: vs => do pure ((← marshalValue v) :: (← marshalList vs))

end

/-- `json.Marshal` on the whole record: serialize every value,
stopping at the first error. -/
def marshalRecord (record : Context) : Except String (List (String × Json)) :=
  record.mapM fun kv => (marshalValue kv.2).map fun j => (kv.1, j)

/-- The observable outcome of one `write` call: `sink` is the record
written to the configured writer (`none` when no bytes were written),
`fallback` is the diagnostic printed by `fmt.Println` on a
serialization error. -/
structure WriteResult where
  sink : Option Json
  fallback : Option String

/-- Whether a call returned normally or terminated the process. -/
inductive ProcResult where
  | returned : ProcResult
  | exited : Int → ProcResult

/-- The record built by `write` after the threshold check: the
logger's context copied into a fresh map, each call-site context
merged over it in order, then the metadata fields set (note: the
level field is set from `l.level`, exactly as in the source). -/
def Logger.buildRecord (l : Logger) (msg : String) (context : List Context)
    (ts callerStr : String) : Context :=
  let record := mergeInto [] l.context
  let record := context.foldl mergeInto record
  let record := mapSet record l.timeKey (GoValue.str ts)
  let record := mapSet record l.messageKey (GoValue.str msg)
  let record := mapSet record l.levelKey (GoValue.str l.level.toStr)
  let record := mapSet record l.callerKey (GoValue.str callerStr)
  record

/-- `Logger.write` in state-passing form: the first component is the
receiver's state when the method returns (the method never assigns
through the receiver), the second its observable output. -/
def Logger.write (l : Logger) (level : Level) (msg : String) (context : List Context)
    (ts callerStr : String) : Logger × WriteResult :=
  if level > l.level then (l, ⟨none, none⟩)
  else
    match marshalRecord (l.buildRecord msg context ts callerStr) with
    | .ok fields => (l, ⟨some (Json.obj fields), none⟩)
    | .error e => (l, ⟨none, some e⟩)

/-- `Logger.Error`. -/
def Logger.Error (l : Logger) (msg : String) (context : List Context)
    (ts callerStr : String) : Logger × WriteResult :=
  l.write LevelError msg context ts callerStr

/-- `Logger.Info`. -/
def Logger.Info (l : Logger) (msg : String) (context : List Context)
    (ts callerStr : String) : Logger × WriteResult :=
  l.write LevelInfo msg context ts callerStr

/-- `Logger.Debug`. -/
def Logger.Debug (l : Logger) (msg : String) (context : List Context)
    (ts callerStr : String) : Logger × WriteResult :=
  l.write LevelDebug msg context ts callerStr

/-- `Logger.Fatal`: write at the fatal level, then `os.Exit(-1)`
unconditionally. -/
def Logger.Fatal (l : Logger) (msg : String) (context : List Context)
    (ts callerStr : String) : Logger × WriteResult × ProcResult :=
  let r := l.write LevelFatal msg context ts callerStr
  (r.1, r.2, ProcResult.exited (-1))

/-- A concrete logger carrying the constructor defaults, used to
instantiate universally quantified statements. -/
def sampleLogger : Logger :=
  { level := LevelDebug
    context := []
    writer := 0
    timeKey := DefaultTimeKey
    levelKey := DefaultLevelKey
    messageKey := DefaultMessageKey
    callerKey := DefaultCallerKey
    callerSkip := DefaultCallerSkip }

/-- A concrete logger whose persistent context binds "bar" to "baz". -/
def sampleCtxLogger : Logger :=
  { sampleLogger with context := [("bar", GoValue.str "baz")] }

instance (c : Context) : Decidable (keysNodup c) :=
  inferInstanceAs (Decidable (c.map Prod.fst).Nodup)

/-! ## Lemmas about the embedded Go map operations -/

theorem mapGet_mapSet {κ ν : Type} [DecidableEq κ] (m : List (κ × ν)) (k k' : κ) (v : ν) :
    mapGet (mapSet m k v) k' = if k = k' then some v else mapGet m k' := by
  induction m with
  | nil => simp [mapGet, mapSet]
  | cons kv rest ih =>
    obtain ⟨k0, v0⟩ := kv
    simp only [mapSet]
    by_cases h0 : k0 = k
    · subst h0
      by_cases h1 : k0 = k' <;> simp [mapGet, h1]
    · by_cases h1 : k0 = k'
      · subst h1
        have hkk : ¬ k = k0 := fun h => h0 h.symm
        simp [mapGet, h0, hkk]
      · simp [mapGet, h0, h1, ih]

theorem mapGet_eq_none {κ ν : Type} [DecidableEq κ] (m : List (κ × ν)) (k : κ)
    (h : k ∉ m.map Prod.fst) : mapGet m k = none := by
  induction m with
  | nil => rfl
  | cons kv rest ih =>
    obtain ⟨k0, v0⟩ := kv
    simp only [List.map_cons, List.mem_cons, not_or] at h
    have hne : k0 ≠ k := fun hh => h.1 hh.symm
    simp [mapGet, hne, ih h.2]

theorem mapGet_mergeInto (dst src : Context) (h : keysNodup src) (k : String) :
    mapGet (mergeInto dst src) k = (mapGet src k).orElse fun _ => mapGet dst k := by
  induction src generalizing dst with
  | nil => simp [mergeInto, mapGet, Option.none_orElse']
  | cons kv rest ih =>
    obtain ⟨k0, v0⟩ := kv
    rw [keysNodup, List.map_cons, List.nodup_cons] at h
    have step : mergeInto dst ((k0, v0) :: rest) = mergeInto (mapSet dst k0 v0) rest := rfl
    rw [step, ih (mapSet dst k0 v0) h.2]
    by_cases h0 : k0 = k
    · subst h0
      rw [mapGet_eq_none rest k0 h.1]
      simp [mapGet, mapGet_mapSet, Option.none_orElse', Option.some_orElse']
    · simp [mapGet, h0, mapGet_mapSet]

theorem mapGet_foldl_mergeInto (cs : List Context) (dst : Context)
    (h : ∀ c ∈ cs, keysNodup c) (k : String) :
    mapGet (cs.foldl mergeInto dst) k = (overlayGet cs k).orElse fun _ => mapGet dst k := by
  induction cs generalizing dst with
  | nil => simp [overlayGet, Option.none_orElse']
  | cons c cs ih =>
    rw [List.foldl_cons, ih (mergeInto dst c) (fun c' hc' => h c' (List.mem_cons_of_mem _ hc')),
      mapGet_mergeInto dst c (h c (List.mem_cons_self _ _)) k]
    show _ = (overlayGet (c :: cs) k).orElse fun _ => mapGet dst k
    cases hov : overlayGet cs k <;>
      simp [overlayGet, hov, Option.none_orElse', Option.some_orElse']

/-! ## Lemmas about serialization and the write pipeline -/

theorem marshalList_isOk (vs : List GoValue) :
    (marshalList vs).isOk = vs.all fun v => (marshalValue v).isOk := by
  induction vs with
  | nil => rfl
  | cons v vs ih =>
    rw [List.all_cons, ← ih]
    simp only [marshalList]
    cases hv : marshalValue v
    · simp [Bind.bind, Except.bind, hv, Except.isOk, Except.toBool]
    · cases hl : marshalList vs <;>
        simp [Bind.bind, Except.bind, hv, hl, Except.isOk, Except.toBool, pure, Except.pure]

theorem map_isOk {ε α β : Type} (f : α → β) (x : Except ε α) :
    (x.map f).isOk = x.isOk := by
  cases x <;> rfl

theorem write_fst (l : Logger) (level : Level) (msg : String) (cs : List Context)
    (ts callerStr : String) : (l.write level msg cs ts callerStr).1 = l := by
  unfold Logger.write
  split
  · rfl
  · split <;> rfl

theorem mapGet_buildRecord (l : Logger) (msg : String) (cs : List Context)
    (ts callerStr k : String)
    (hnd : keysNodup l.context) (hcs : ∀ c ∈ cs, keysNodup c)
    (h1 : k ≠ l.timeKey) (h2 : k ≠ l.messageKey) (h3 : k ≠ l.levelKey) (h4 : k ≠ l.callerKey) :
    mapGet (l.buildRecord msg cs ts callerStr) k
      = (overlayGet cs k).orElse fun _ => mapGet l.context k := by
  unfold Logger.buildRecord
  rw [mapGet_mapSet, if_neg (Ne.symm h4), mapGet_mapSet, if_neg (Ne.symm h3),
    mapGet_mapSet, if_neg (Ne.symm h2), mapGet_mapSet, if_neg (Ne.symm h1),
    mapGet_foldl_mergeInto cs _ hcs k, mapGet_mergeInto [] l.context hnd k]
  cases overlayGet cs k <;> cases mapGet l.context k <;>
    simp [mapGet, Option.none_orElse', Option.some_orElse', Option.orElse_none']

theorem buildRecord_fresh (l : Logger) (msg ts callerStr k : String)
    (hnd : keysNodup l.context)
    (h1 : k ≠ l.timeKey) (h2 : k ≠ l.messageKey) (h3 : k ≠ l.levelKey) (h4 : k ≠ l.callerKey)
    (h0 : mapGet l.context k = none) :
    mapGet (l.buildRecord msg [] ts callerStr) k = none := by
  rw [mapGet_buildRecord l msg [] ts callerStr k hnd (by intro c hc; cases hc) h1 h2 h3 h4]
  simp [overlayGet, Option.none_orElse', h0]

theorem overlayGet_ne_none (cs : List Context) (k : String) (c : Context)
    (h : mapGet c k ≠ none) : c ∈ cs → overlayGet cs k ≠ none := by
  induction cs with
  | nil => intro hc; cases hc
  | cons c0 cs ih =>
    intro hc
    rcases List.mem_cons.mp hc with hc0 | hc0
    · subst hc0
      cases hov : overlayGet cs k with
      | none => simp [overlayGet, hov, Option.none_orElse', h]
      | some v => simp [overlayGet, hov, Option.some_orElse']
    · cases hov : overlayGet cs k with
      | none => exact absurd hov (ih hc0)
      | some v => simp [overlayGet, hov, Option.some_orElse']

/-! ## Claim theorems -/

/-- C9: each defined Level round-trips through its string form; the
synonyms "eror" and "err" parse to the same Level as "error"; any
string outside the accepted set fails to parse; and an out-of-range
Level renders as the sentinel "unknown" instead of failing. -/
theorem c9_level_string_roundtrip :
    (LevelFromString (Level.toStr LevelFatal) = .ok LevelFatal
      ∧ LevelFromString (Level.toStr LevelError) = .ok LevelError
      ∧ LevelFromString (Level.toStr LevelInfo) = .ok LevelInfo
      ∧ LevelFromString (Level.toStr LevelDebug) = .ok LevelDebug)
    ∧ (LevelFromString "eror" = .ok LevelError ∧ LevelFromString "err" = .ok LevelError)
    ∧ (∀ s : String, s ≠ "debug" → s ≠ "info" → s ≠ "error" → s ≠ "eror" → s ≠ "err" →
        s ≠ "fatal" → (LevelFromString s).isOk = false)
    ∧ (∀ l : Level, l ≠ LevelFatal → l ≠ LevelError → l ≠ LevelInfo → l ≠ LevelDebug →
        Level.toStr l = "unknown") := by
  refine ⟨⟨rfl, rfl, rfl, rfl⟩, ⟨rfl, rfl⟩, ?_, ?_⟩
  · intro s h1 h2 h3 h4 h5 h6
    simp [LevelFromString, h1, h2, h3, h4, h5, h6, Except.isOk, Except.toBool]
  · intro l h0 h1 h2 h3
    simp [Level.toStr, levelsMap, mapGet, Ne.symm h0, Ne.symm h1, Ne.symm h2, Ne.symm h3]

/-- C9 witness: "warn" is rejected by the parser and the out-of-range
level 7 renders as "unknown". -/
theorem c9_witness :
    (LevelFromString "warn").isOk = false ∧ Level.toStr 7 = "unknown" :=
  ⟨c9_level_string_roundtrip.2.2.1 "warn" (by decide) (by decide) (by decide) (by decide)
      (by decide) (by decide),
    c9_level_string_roundtrip.2.2.2 7 (by decide) (by decide) (by decide) (by decide)⟩

/-- C8: `SetCallerSkip` with a skip below the floor
(`DefaultCallerSkip` = 2) makes construction fail — via `New` and via
`Logger.New` alike, no logger is returned — while a skip at or above
the floor succeeds and sets that skip depth. -/
theorem c8_caller_skip_validation :
    ∀ (ctx : Context) (l : Logger) (i : Int),
      (i < DefaultCallerSkip →
        (New ctx [SetCallerSkip i]).isOk = false
        ∧ (Logger.New l ctx [SetCallerSkip i]).isOk = false)
      ∧ (DefaultCallerSkip ≤ i →
        (∃ n, New ctx [SetCallerSkip i] = .ok n ∧ n.callerSkip = i)
        ∧ (∃ n, Logger.New l ctx [SetCallerSkip i] = .ok n ∧ n.callerSkip = i)) := by
  intro ctx l i
  constructor
  · intro hlt
    constructor <;>
      simp [New, Logger.New, doOptions, SetCallerSkip, hlt, Bind.bind, Except.bind,
        Except.isOk, Except.toBool]
  · intro hge
    have hnlt : ¬ i < DefaultCallerSkip := not_lt.mpr hge
    constructor
    · have h : New ctx [SetCallerSkip i] =
          .ok { level := LevelDebug
                context := ctx
                writer := 0
                timeKey := DefaultTimeKey
                levelKey := DefaultLevelKey
                messageKey := DefaultMessageKey
                callerKey := DefaultCallerKey
                callerSkip := i } := by
        simp [New, doOptions, SetCallerSkip, hnlt, Bind.bind, Except.bind]
      exact ⟨_, h, rfl⟩
    · have h : Logger.New l ctx [SetCallerSkip i] =
          .ok { level := l.level
                context := mergeInto (mergeInto [] l.context) ctx
                writer := l.writer
                timeKey := l.timeKey
                levelKey := l.levelKey
                messageKey := l.messageKey
                callerKey := l.callerKey
                callerSkip := i } := by
        simp [Logger.New, doOptions, SetCallerSkip, hnlt, Bind.bind, Except.bind]
      exact ⟨_, h, rfl⟩

/-- C8 witness: skip 0 fails construction, skip 5 succeeds and is
stored. -/
theorem c8_witness :
    (New [] [SetCallerSkip 0]).isOk = false
    ∧ (∃ n, New [] [SetCallerSkip 5] = .ok n ∧ n.callerSkip = 5) :=
  ⟨((c8_caller_skip_validation [] sampleLogger 0).1 (by decide)).1,
    ((c8_caller_skip_validation [] sampleLogger 5).2 (by decide)).1⟩

/-- C5: Fatal performs the fatal-level write (attempting emission) and
then unconditionally terminates the process with the non-zero status
-1; its outcome is an exit, never a normal return, for every input —
in particular also when emission failed. -/
theorem c5_fatal_exits :
    ∀ (l : Logger) (msg : String) (cs : List Context) (ts callerStr : String),
      (l.Fatal msg cs ts callerStr).2.1 = (l.write LevelFatal msg cs ts callerStr).2
      ∧ (l.Fatal msg cs ts callerStr).2.2 = ProcResult.exited (-1)
      ∧ (l.Fatal msg cs ts callerStr).2.2 ≠ ProcResult.returned
      ∧ (-1 : Int) ≠ 0 := by
  intro l msg cs ts callerStr
  refine ⟨rfl, rfl, ?_, by decide⟩
  simp [Logger.Fatal]

/-- C2 (exhibiting the level-field defect): on a logger with the
default configuration — threshold `LevelDebug` — an Info-level call
emits a record whose level field holds "debug", the string form of the
logger's configured threshold, not "info", the string form of the
event's level, because `write` reads `l.level` instead of the event
level when it sets the level field. -/
theorem c2_level_field_is_threshold :
    (sampleLogger.Info "m" [] "T" "C").2.sink
      = some (Json.obj [(DefaultTimeKey, Json.str "T"), (DefaultMessageKey, Json.str "m"),
          (DefaultLevelKey, Json.str "debug"), (DefaultCallerKey, Json.str "C")])
    ∧ Level.toStr LevelInfo = "info"
    ∧ "debug" ≠ "info" :=
  ⟨rfl, rfl, by decide⟩

/-- C1 counterexample: on a logger with the default threshold
(`LevelDebug`), an Info-level call whose call-site context holds a
`diary.Value` wrapping a non-function writes nothing to the sink even
though the event level is admitted by the threshold — so "bytes are
written iff E <= T" fails in the only-if-less-severe direction. -/
theorem c1_counterexample :
    LevelInfo ≤ sampleLogger.level
    ∧ (sampleLogger.write LevelInfo "m"
        [[("x", GoValue.value GoFunc.notFunc)]] "T" "C").2.sink = none :=
  ⟨by decide, rfl⟩

/-- C1 (amended): bytes are written to the sink iff the event level is
admitted by the threshold (`E <= T` ordinally) and the merged record
serializes successfully; when the event is less severe than the
threshold the call writes nothing, produces no fallback diagnostic,
and performs no serialization. -/
theorem c1_threshold_filter :
    ∀ (l : Logger) (level : Level) (msg : String) (cs : List Context)
      (ts callerStr : String),
      ((l.write level msg cs ts callerStr).2.sink.isSome = true
          ↔ level ≤ l.level
            ∧ (marshalRecord (l.buildRecord msg cs ts callerStr)).isOk = true)
      ∧ (l.level < level →
          (l.write level msg cs ts callerStr).2 = ⟨none, none⟩) := by
  intro l level msg cs ts callerStr
  constructor
  · by_cases h : level > l.level
    · simp only [Logger.write, if_pos h]
      simp only [Option.isSome]
      constructor
      · intro hfalse; cases hfalse
      · rintro ⟨hle, -⟩
        exact absurd h (not_lt.mpr hle)
    · simp only [Logger.write, if_neg h]
      cases hm : marshalRecord (l.buildRecord msg cs ts callerStr) with
      | ok fields =>
          simp [hm, Option.isSome, Except.isOk, Except.toBool, not_lt.mp h]
      | error e =>
          simp [hm, Option.isSome, Except.isOk, Except.toBool]
  · intro h
    simp only [Logger.write, if_pos h]

/-- C1 witness: a below-threshold call yields no sink output and no
diagnostic; an admitted serializable call yields sink output. -/
theorem c1_witness :
    (sampleLogger.write 4 "m" [] "T" "C").2 = ⟨none, none⟩
    ∧ (sampleLogger.write LevelInfo "m" [] "T" "C").2.sink.isSome = true :=
  ⟨(c1_threshold_filter sampleLogger 4 "m" [] "T" "C").2 (by decide),
    (c1_threshold_filter sampleLogger LevelInfo "m" [] "T" "C").1.mpr
      ⟨by decide, rfl⟩⟩

/-- C6: when the merged record fails serialization, nothing is written
to the configured sink, the diagnostic goes to the fallback channel
(`fmt.Println`), and the call returns normally (the embedding is a
total function returning a `WriteResult`). -/
theorem c6_serialization_failure_drops :
    ∀ (l : Logger) (level : Level) (msg : String) (cs : List Context)
      (ts callerStr : String) (e : String),
      level ≤ l.level →
      marshalRecord (l.buildRecord msg cs ts callerStr) = .error e →
      (l.write level msg cs ts callerStr).2 = ⟨none, some e⟩ := by
  intro l level msg cs ts callerStr e hle hm
  simp only [Logger.write, if_neg (not_lt.mpr hle), hm]

/-- C6 witness: an Info-level call with a `Value` wrapping a
non-function is dropped with the "not func" diagnostic on the
fallback channel. -/
theorem c6_witness :
    (sampleLogger.write LevelInfo "m"
        [[("x", GoValue.value GoFunc.notFunc)]] "T" "C").2 = ⟨none, some "not func"⟩ :=
  c6_serialization_failure_drops sampleLogger LevelInfo "m"
    [[("x", GoValue.value GoFunc.notFunc)]] "T" "C" "not func" (by decide) rfl

/-- C7 counterexample: a `Value` wrapping a zero-argument function
with exactly one return value — none of the claim's three error
conditions — still fails to serialize when the returned value itself
fails to serialize. -/
theorem c7_counterexample :
    (MarshalJSON (GoFunc.fn 0 [GoValue.value GoFunc.notFunc])).isOk = false
    ∧ (0 : Nat) = 0
    ∧ [GoValue.value GoFunc.notFunc].length = 1 :=
  ⟨rfl, rfl, rfl⟩

/-- C7 (amended): serializing a `Value` errors iff its wrapped Func is
not a function, takes one or more arguments, has zero return values,
or some returned value itself fails to serialize; otherwise a sole
return value serializes as that value directly and several return
values serialize as the ordered sequence of those values. -/
theorem c7_value_marshal :
    (MarshalJSON GoFunc.notFunc).isOk = false
    ∧ (∀ (n : Nat) (rs : List GoValue), (MarshalJSON (GoFunc.fn (n + 1) rs)).isOk = false)
    ∧ (MarshalJSON (GoFunc.fn 0 [])).isOk = false
    ∧ (∀ r, MarshalJSON (GoFunc.fn 0 [r]) = marshalValue r)
    ∧ (∀ r1 r2 rs, MarshalJSON (GoFunc.fn 0 (r1 :: r2 :: rs))
        = (marshalList (r1 :: r2 :: rs)).map Json.arr)
    ∧ (∀ (n : Nat) (rs : List GoValue),
        (MarshalJSON (GoFunc.fn n rs)).isOk = true
          ↔ n = 0 ∧ rs ≠ [] ∧ ∀ r ∈ rs, (marshalValue r).isOk = true) := by
  refine ⟨rfl, fun n rs => rfl, rfl, fun r => rfl, fun r1 r2 rs => rfl, ?_⟩
  intro n rs
  match n, rs with
  | 0, [] => simp [MarshalJSON, Except.isOk, Except.toBool]
  | 0, [r] => simp [MarshalJSON]
  | 0, r1 :: r2 :: rs =>
      rw [show MarshalJSON (GoFunc.fn 0 (r1 :: r2 :: rs))
          = (marshalList (r1 :: r2 :: rs)).map Json.arr from rfl,
        map_isOk, marshalList_isOk]
      simp [List.all_eq_true]
  | n + 1, rs => simp [MarshalJSON, Except.isOk, Except.toBool]

/-- C7 witness: a zero-argument function with two return values
serializes as the ordered sequence of the two values. -/
theorem c7_witness :
    MarshalJSON (GoFunc.fn 0 [GoValue.str "a", GoValue.num 1])
      = .ok (Json.arr [Json.str "a", Json.num 1]) := by
  rw [c7_value_marshal.2.2.2.2.1 (GoValue.str "a") (GoValue.num 1) []]
  rfl

/-- C3: for a logger context and call-site contexts — Go maps, hence
with pairwise-distinct keys — every user field of the built record is
the left-to-right overlay of logger context then call-site contexts in
order: a key present in any source is present in the record, and on
duplicate keys the latest source wins (call-site over logger context,
later argument over earlier). -/
theorem c3_merge_overlay :
    ∀ (l : Logger) (msg : String) (cs : List Context) (ts callerStr k : String),
      keysNodup l.context → (∀ c ∈ cs, keysNodup c) →
      k ≠ l.timeKey → k ≠ l.messageKey → k ≠ l.levelKey → k ≠ l.callerKey →
      (mapGet (l.buildRecord msg cs ts callerStr) k
          = (overlayGet cs k).orElse fun _ => mapGet l.context k)
      ∧ (∀ c ∈ cs, mapGet c k ≠ none →
          mapGet (l.buildRecord msg cs ts callerStr) k ≠ none)
      ∧ (mapGet l.context k ≠ none →
          mapGet (l.buildRecord msg cs ts callerStr) k ≠ none) := by
  intro l msg cs ts callerStr k hnd hcs h1 h2 h3 h4
  have heq := mapGet_buildRecord l msg cs ts callerStr k hnd hcs h1 h2 h3 h4
  refine ⟨heq, ?_, ?_⟩
  · intro c hc hv
    rw [heq]
    have hov := overlayGet_ne_none cs k c hv hc
    cases h : overlayGet cs k with
    | none => exact absurd h hov
    | some v => simp [Option.some_orElse']
  · intro hv
    rw [heq]
    cases h : overlayGet cs k with
    | none => simpa [Option.none_orElse'] using hv
    | some v => simp [Option.some_orElse']

/-- C3 witness: with logger context binding "bar" to "baz" and
call-site context binding "foo" to "bar", the record carries both. -/
theorem c3_witness :
    mapGet (sampleCtxLogger.buildRecord "m" [[("foo", GoValue.str "bar")]] "T" "C") "foo"
      = some (GoValue.str "bar")
    ∧ mapGet (sampleCtxLogger.buildRecord "m" [[("foo", GoValue.str "bar")]] "T" "C") "bar"
      = some (GoValue.str "baz") := by
  constructor
  · rw [(c3_merge_overlay sampleCtxLogger "m" [[("foo", GoValue.str "bar")]] "T" "C" "foo"
      (by decide) (by decide) (by decide) (by decide) (by decide) (by decide)).1]
    rfl
  · rw [(c3_merge_overlay sampleCtxLogger "m" [[("foo", GoValue.str "bar")]] "T" "C" "bar"
      (by decide) (by decide) (by decide) (by decide) (by decide) (by decide)).1]
    rfl

/-- C4: child derivation yields a child copying the parent's level,
writer, field keys and caller-skip, whose context is the parent
context overlaid with the extra context (extra wins on collision); the
parent value is untouched by the derivation (it is consumed
immutably), and a record subsequently built on the parent contains no
key of the child's extra context that the parent did not already
carry. -/
theorem c4_child_derivation :
    ∀ (l : Logger) (extra : Context),
      keysNodup l.context → keysNodup extra →
      ∃ n, Logger.New l extra [] = .ok n
        ∧ n.level = l.level ∧ n.writer = l.writer ∧ n.timeKey = l.timeKey
        ∧ n.levelKey = l.levelKey ∧ n.messageKey = l.messageKey
        ∧ n.callerKey = l.callerKey ∧ n.callerSkip = l.callerSkip
        ∧ (∀ k, mapGet n.context k = (mapGet extra k).orElse fun _ => mapGet l.context k)
        ∧ (∀ (msg ts callerStr k : String),
            k ≠ l.timeKey → k ≠ l.messageKey → k ≠ l.levelKey → k ≠ l.callerKey →
            mapGet l.context k = none →
            mapGet (l.buildRecord msg [] ts callerStr) k = none) := by
  intro l extra hnd hext
  refine ⟨_, rfl, rfl, rfl, rfl, rfl, rfl, rfl, rfl, ?_, ?_⟩
  · intro k
    show mapGet (mergeInto (mergeInto [] l.context) extra) k
        = (mapGet extra k).orElse fun _ => mapGet l.context k
    rw [mapGet_mergeInto _ extra hext k]
    cases mapGet extra k with
    | none =>
        simp only [Option.none_orElse']
        rw [mapGet_mergeInto [] l.context hnd k]
        cases mapGet l.context k <;>
          simp [mapGet, Option.none_orElse', Option.some_orElse']
    | some v => simp [Option.some_orElse']
  · exact fun msg ts callerStr k h1 h2 h3 h4 h0 =>
      buildRecord_fresh l msg ts callerStr k hnd h1 h2 h3 h4 h0

/-- C4 witness: deriving from a parent with context "bar" ↦ "baz" and
extra context "foo" ↦ "bar" yields a child context carrying both. -/
theorem c4_witness :
    ∃ n, Logger.New sampleCtxLogger [("foo", GoValue.str "bar")] [] = .ok n
      ∧ mapGet n.context "foo" = some (GoValue.str "bar")
      ∧ mapGet n.context "bar" = some (GoValue.str "baz") := by
  obtain ⟨n, hok, -, -, -, -, -, -, -, hctx, -⟩ :=
    c4_child_derivation sampleCtxLogger [("foo", GoValue.str "bar")] (by decide) (by decide)
  refine ⟨n, hok, ?_, ?_⟩
  · rw [hctx "foo"]; rfl
  · rw [hctx "bar"]; rfl

/-- C10: every leveled logging call returns the logger state unchanged
(level, writer, field keys, caller-skip and persistent context all
intact, the receiver being threaded through untouched), and the record
of a call is built in a fresh mapping: a user key that is not in the
logger's own context does not occur in the record of a call made
without call-site arguments — call-site contexts of other calls are
never merged back. -/
theorem c10_write_frame :
    ∀ (l : Logger) (level : Level) (msg : String) (cs : List Context)
      (ts callerStr : String),
      (l.write level msg cs ts callerStr).1 = l
      ∧ (l.Debug msg cs ts callerStr).1 = l
      ∧ (l.Info msg cs ts callerStr).1 = l
      ∧ (l.Error msg cs ts callerStr).1 = l
      ∧ (l.Fatal msg cs ts callerStr).1 = l
      ∧ (∀ k : String, keysNodup l.context →
          k ≠ l.timeKey → k ≠ l.messageKey → k ≠ l.levelKey → k ≠ l.callerKey →
          mapGet l.context k = none →
          mapGet (l.buildRecord msg [] ts callerStr) k = none) := by
  intro l level msg cs ts callerStr
  refine ⟨write_fst l level msg cs ts callerStr,
    write_fst l LevelDebug msg cs ts callerStr,
    write_fst l LevelInfo msg cs ts callerStr,
    write_fst l LevelError msg cs ts callerStr,
    write_fst l LevelFatal msg cs ts callerStr, ?_⟩
  exact fun k hnd h1 h2 h3 h4 h0 =>
    buildRecord_fresh l msg ts callerStr k hnd h1 h2 h3 h4 h0

/-- C10 witness: an Info call with a call-site context leaves the
logger unchanged, and a later record built without call-site arguments
does not carry the earlier call-site key. -/
theorem c10_witness :
    (sampleCtxLogger.write LevelInfo "m" [[("foo", GoValue.str "bar")]] "T" "C").1
      = sampleCtxLogger
    ∧ mapGet (sampleCtxLogger.buildRecord "m2" [] "T2" "C2") "foo" = none := by
  refine ⟨(c10_write_frame sampleCtxLogger LevelInfo "m"
    [[("foo", GoValue.str "bar")]] "T" "C").1, ?_⟩
  exact (c10_write_frame sampleCtxLogger LevelInfo "m2" [] "T2" "C2").2.2.2.2.2 "foo"
    (by decide) (by decide) (by decide) (by decide) (by decide) rfl
